import Mathlib

/-!
Verification of the TechForge Task Orchestration Engine
(`src/orchestration/orchestrator.py`, class `OrchestrationEngine`).

The Python source is shallowly embedded here:
* strings are compared as in Python (`keyword in text` is contiguous
  substring containment; `str.lower()` on the ASCII texts involved adds 32
  to the codes of A..Z), modelled over lists of character codes;
* Python floats are modelled as rationals (`ℚ`); every duration in the
  source is produced by products and divisions of small decimal constants,
  and no settled statement depends on binary rounding;
* `list(set(xs))` returns the distinct elements of `xs` in an unspecified
  (hash-based) order; it is modelled by `List.dedup`.  Every statement
  proved below depends only on membership and on the number of distinct
  elements, never on the order of such a list;
* the per-run random ids (`uuid4`) are modelled by an arbitrary id supply
  `gen : Nat → String` passed to the analysis entry point.
-/

namespace Orchestrator

/-! ## Text model -/

/-- Character codes of a string (Python iterates strings by code point). -/
def codes (s : String) : List Nat := s.data.map Char.toNat

/-- ASCII lower-casing of one code, as `str.lower()` acts on the ASCII
texts appearing in the engine: codes 65..90 (A..Z) are shifted by 32. -/
def lower_code (n : Nat) : Nat := if 65 ≤ n && n ≤ 90 then n + 32 else n

/-- Embeds `task.lower()` from the source, as a list of character codes. -/
def lower (s : String) : List Nat := (codes s).map lower_code

/-- Whether `p` occurs at the start of `l`. -/
def begins_with : List Nat → List Nat → Bool
  | [], _ => true
  | _ :: _, [] => false
  | a :: as_, b :: bs => a == b && begins_with as_ bs

/-- Whether `p` occurs contiguously inside `l` (Python `p in l` on
strings); the empty pattern occurs in every string. -/
def occurs_in (p : List Nat) : List Nat → Bool
  | [] => begins_with p []
  | b :: t => begins_with p (b :: t) || occurs_in p t

/-- Embeds `keyword in task_lower` from the source: the (lower-case) keyword
literal occurs inside the lower-cased task text. -/
def keyword_in (hay : List Nat) (kw : String) : Bool := occurs_in (codes kw) hay

/-! ## Data model (`TaskComplexity`, `TaskDomain`, `SubTask`, `TaskAnalysis`) -/

inductive TaskComplexity
  | simple
  | moderate
  | complex
  | expert
deriving DecidableEq, Fintype

inductive TaskDomain
  | backend
  | frontend
  | database
  | devops
  | security
  | testing
  | ml_ai
  | mobile
  | game
  | iot
  | design
  | refactoring
  | full_stack
deriving DecidableEq, Fintype

/-- One entry of the `AGENT_CAPABILITIES` matrix. -/
structure Capability where
  domains : List TaskDomain
  skills : List String
  complexity_limit : TaskComplexity
  parallel_capacity : Nat

/-- The static agent capability matrix (source lines 81-160), in the
declaration order of the Python dict. -/
def AGENT_CAPABILITIES : List (String × Capability) :=
  [ ("backend-expert",
      { domains := [.backend, .full_stack],
        skills := ["api", "microservices", "database", "authentication", "performance"],
        complexity_limit := .expert, parallel_capacity := 3 }),
    ("frontend-expert",
      { domains := [.frontend, .full_stack],
        skills := ["ui", "responsive", "spa", "components", "state-management"],
        complexity_limit := .expert, parallel_capacity := 3 }),
    ("database-expert",
      { domains := [.database],
        skills := ["schema", "optimization", "migration", "replication", "nosql"],
        complexity_limit := .expert, parallel_capacity := 2 }),
    ("devops-expert",
      { domains := [.devops],
        skills := ["ci-cd", "infrastructure", "deployment", "monitoring", "cloud"],
        complexity_limit := .expert, parallel_capacity := 2 }),
    ("security-expert",
      { domains := [.security],
        skills := ["audit", "penetration", "encryption", "compliance", "authentication"],
        complexity_limit := .expert, parallel_capacity := 2 }),
    ("qa-expert",
      { domains := [.testing],
        skills := ["unit-testing", "e2e", "performance", "automation", "coverage"],
        complexity_limit := .complex, parallel_capacity := 3 }),
    ("ai-ml-expert",
      { domains := [.ml_ai],
        skills := ["training", "models", "inference", "data-pipeline", "optimization"],
        complexity_limit := .expert, parallel_capacity := 1 }),
    ("mobile-expert",
      { domains := [.mobile],
        skills := ["ios", "android", "cross-platform", "native", "responsive"],
        complexity_limit := .expert, parallel_capacity := 2 }),
    ("game-expert",
      { domains := [.game],
        skills := ["graphics", "physics", "multiplayer", "optimization", "engines"],
        complexity_limit := .expert, parallel_capacity := 1 }),
    ("hardware-iot-expert",
      { domains := [.iot],
        skills := ["embedded", "sensors", "protocols", "firmware", "edge-computing"],
        complexity_limit := .complex, parallel_capacity := 1 }),
    ("uiux-principal",
      { domains := [.design],
        skills := ["ux", "accessibility", "design-systems", "prototyping", "research"],
        complexity_limit := .complex, parallel_capacity := 2 }),
    ("web-design-agent",
      { domains := [.design, .frontend],
        skills := ["web-design", "seo", "performance", "pwa", "responsive"],
        complexity_limit := .complex, parallel_capacity := 2 }),
    ("refactor-agent",
      { domains := [.refactoring],
        skills := ["code-quality", "patterns", "modernization", "debt-reduction", "automation"],
        complexity_limit := .expert, parallel_capacity := 1 }) ]

/-- Dict lookup `AGENT_CAPABILITIES[agent]`; `none` corresponds to the
`KeyError` the source would raise for an unknown id. -/
def agent_capability (a : String) : Option Capability :=
  (AGENT_CAPABILITIES.find? (fun e => e.1 == a)).map (fun e => e.2)

/-- The role ids declared in the capability registry. -/
def registry_ids : List String := AGENT_CAPABILITIES.map (fun e => e.1)

/-- One entry of the `TASK_PATTERNS` table. -/
structure Pattern where
  keywords : List String
  agents : List String
  complexity : TaskComplexity

/-- The task recognition pattern table (source lines 163-214), in dict
declaration order. -/
def TASK_PATTERNS : List (String × Pattern) :=
  [ ("api_creation",
      { keywords := ["api", "rest", "graphql", "endpoint", "service"],
        agents := ["backend-expert"], complexity := .moderate }),
    ("ui_component",
      { keywords := ["component", "ui", "interface", "widget", "frontend"],
        agents := ["frontend-expert"], complexity := .simple }),
    ("full_stack_feature",
      { keywords := ["feature", "application", "full-stack", "end-to-end"],
        agents := ["backend-expert", "frontend-expert", "database-expert"],
        complexity := .complex }),
    ("database_optimization",
      { keywords := ["database", "query", "optimize", "performance", "index"],
        agents := ["database-expert"], complexity := .moderate }),
    ("security_audit",
      { keywords := ["security", "vulnerability", "audit", "penetration", "compliance"],
        agents := ["security-expert"], complexity := .complex }),
    ("deployment",
      { keywords := ["deploy", "ci/cd", "pipeline", "infrastructure", "cloud"],
        agents := ["devops-expert"], complexity := .moderate }),
    ("testing",
      { keywords := ["test", "testing", "qa", "coverage", "automation"],
        agents := ["qa-expert"], complexity := .moderate }),
    ("ml_model",
      { keywords := ["machine learning", "ml", "ai", "model", "training"],
        agents := ["ai-ml-expert"], complexity := .complex }),
    ("mobile_app",
      { keywords := ["mobile", "ios", "android", "app", "native"],
        agents := ["mobile-expert"], complexity := .complex }),
    ("refactoring",
      { keywords := ["refactor", "clean", "optimize", "modernize", "tech debt"],
        agents := ["refactor-agent"], complexity := .moderate }) ]

/-- Embeds `SubTask` (source lines 62-72); the unused `metadata` mapping is
omitted.  Priorities are the integers 1..6 assigned by
`_calculate_priority`, so `Nat` suffices. -/
structure SubTask where
  id : String
  description : String
  agent_id : String
  domain : TaskDomain
  dependencies : List String
  priority : Nat
  estimated_time : ℚ

/-- Embeds `TaskAnalysis` (source lines 48-59).  The dependency dict is an
association list in subtask order. -/
structure TaskAnalysis where
  task_id : String
  original_task : String
  complexity : TaskComplexity
  domains : List TaskDomain
  required_agents : List String
  subtasks : List SubTask
  dependencies : List (String × List String)
  estimated_time : ℚ
  confidence : ℚ

/-! ## Task Classifier (`_identify_domains`, `_assess_complexity`) -/

/-- Embeds `_identify_domains` (source lines 258-278): for each pattern whose
keywords hit the lower-cased task, accumulate the domains of each of the
pattern agents (the source loop extends one list in this same order);
deduplicate; default to `[full_stack]` when nothing matched. -/
def identify_domains (task : String) : List TaskDomain :=
  let t := lower task
  let ds := TASK_PATTERNS.flatMap (fun p =>
    if p.2.keywords.any (fun k => keyword_in t k) then
      p.2.agents.flatMap (fun ag => ((agent_capability ag).map Capability.domains).getD [])
    else [])
  let dd := ds.dedup
  if dd.isEmpty then [TaskDomain.full_stack] else dd

def complex_indicators : List String :=
  ["architecture", "system", "infrastructure", "migration",
   "integration", "optimization", "redesign", "refactor"]

def expert_indicators : List String :=
  ["enterprise", "scale", "distributed", "real-time",
   "high-performance", "security-critical", "compliance"]

/-- Embeds `_assess_complexity` (source lines 280-306). -/
def assess_complexity (task : String) (domains : List TaskDomain) : TaskComplexity :=
  let t := lower task
  if expert_indicators.any (fun k => keyword_in t k) then .expert
  else if complex_indicators.any (fun k => keyword_in t k) then .complex
  else if 2 < domains.length then .complex
  else if domains.length == 2 then .moderate
  else .simple

/-! ## Role Selector (`_select_agents`) -/

/-- Embeds `_complexity_value` (source lines 339-347). -/
def complexity_value : TaskComplexity → Nat
  | .simple => 1
  | .moderate => 2
  | .complex => 3
  | .expert => 4

def sensitive_keywords : List String :=
  ["auth", "login", "password", "payment", "sensitive", "secure"]

/-- Embeds `_select_agents` (source lines 308-337).  The source accumulates a
Python set; the four contribution groups are concatenated here in the
order the source adds them and deduplicated at the end, which yields the
same set of role ids. -/
def select_agents (task : String) (domains : List TaskDomain)
    (complexity : TaskComplexity) : List String :=
  let t := lower task
  let patternAgents := TASK_PATTERNS.flatMap (fun p =>
    if p.2.keywords.any (fun k => keyword_in t k) then p.2.agents else [])
  let domainAgents := domains.flatMap (fun d =>
    (AGENT_CAPABILITIES.filter (fun e =>
      e.2.domains.contains d &&
        complexity_value complexity ≤ complexity_value e.2.complexity_limit)).map
      (fun e => e.1))
  let qaAgents : List String :=
    if complexity = .complex ∨ complexity = .expert then ["qa-expert"] else []
  let securityAgents : List String :=
    if sensitive_keywords.any (fun k => keyword_in t k) then ["security-expert"] else []
  (patternAgents ++ domainAgents ++ qaAgents ++ securityAgents).dedup

/-! ## Decomposer (`_decompose_task`, `_calculate_priority`,
`_estimate_agent_time`, `_establish_dependencies`) -/

/-- Embeds `_calculate_priority` (source lines 401-421). -/
def calculate_priority (agent_id : String) : Nat :=
  if agent_id == "uiux-principal" || agent_id == "web-design-agent" then 1
  else if agent_id == "database-expert" then 2
  else if agent_id == "backend-expert" then 3
  else if agent_id == "frontend-expert" then 4
  else if agent_id == "qa-expert" || agent_id == "security-expert" then 5
  else if agent_id == "devops-expert" then 6
  else 4

/-- The per-role multiplier table of `_estimate_agent_time`
(source lines 427-443), decimal constants as rationals. -/
def complexity_multiplier (agent_id : String) : ℚ :=
  if agent_id == "backend-expert" then 12/10
  else if agent_id == "frontend-expert" then 1
  else if agent_id == "database-expert" then 8/10
  else if agent_id == "devops-expert" then 3/2
  else if agent_id == "security-expert" then 2
  else if agent_id == "qa-expert" then 13/10
  else if agent_id == "ai-ml-expert" then 3
  else if agent_id == "mobile-expert" then 3/2
  else if agent_id == "game-expert" then 2
  else if agent_id == "hardware-iot-expert" then 5/2
  else if agent_id == "uiux-principal" then 1
  else if agent_id == "web-design-agent" then 12/10
  else if agent_id == "refactor-agent" then 9/5
  else 1

/-- Embeds `_estimate_agent_time` (source lines 423-444):
`len(task) * 0.01 * multiplier`. -/
def estimate_agent_time (agent_id : String) (task : String) : ℚ :=
  (task.length : ℚ) * (1/100) * complexity_multiplier agent_id

/-- The string value of a domain (the `value` of the Python enum member),
used in the generic description fallback. -/
def domain_value : TaskDomain → String
  | .backend => "backend"
  | .frontend => "frontend"
  | .database => "database"
  | .devops => "devops"
  | .security => "security"
  | .testing => "testing"
  | .ml_ai => "ml_ai"
  | .mobile => "mobile"
  | .game => "game"
  | .iot => "iot"
  | .design => "design"
  | .refactoring => "refactoring"
  | .full_stack => "full_stack"

/-- Embeds `_generate_subtask_description` (source lines 377-399).  All thirteen
registry roles have a specific template, so the generic
`"агent handles domains aspects of task"` fallback of the source is only
reachable for ids outside the registry; it is rendered here without the
`str.title` re-casing of the agent name, which no settled claim observes. -/
def subtask_description (task : String) (agent_id : String)
    (domains : List TaskDomain) : String :=
  if agent_id == "backend-expert" then
    "Implement backend services and APIs for: " ++ task
  else if agent_id == "frontend-expert" then
    "Create user interface and frontend components for: " ++ task
  else if agent_id == "database-expert" then
    "Design and optimize database schema for: " ++ task
  else if agent_id == "devops-expert" then
    "Set up infrastructure and deployment for: " ++ task
  else if agent_id == "security-expert" then
    "Perform security audit and implement security measures for: " ++ task
  else if agent_id == "qa-expert" then
    "Create and run comprehensive tests for: " ++ task
  else if agent_id == "ai-ml-expert" then
    "Develop and train machine learning models for: " ++ task
  else if agent_id == "mobile-expert" then
    "Implement mobile application features for: " ++ task
  else if agent_id == "game-expert" then
    "Develop game mechanics and systems for: " ++ task
  else if agent_id == "hardware-iot-expert" then
    "Implement IoT/hardware integration for: " ++ task
  else if agent_id == "uiux-principal" then
    "Design user experience and interface for: " ++ task
  else if agent_id == "web-design-agent" then
    "Create web design and implementation for: " ++ task
  else if agent_id == "refactor-agent" then
    "Refactor and optimize code for: " ++ task
  else
    agent_id ++ " handles " ++ String.intercalate ", " (domains.map domain_value)
      ++ " aspects of: " ++ task

/-- The subtask-creation loop of `_decompose_task` (source lines 349-371):
one subtask per selected agent whose capability domains meet the task
domains, with a fresh id drawn from the supply per created subtask.
The source takes `list(agent_domains)[0]` of a Python set intersection as
the primary domain; the first capability domain that is a task domain is
taken here (no settled claim observes which member is chosen).  An agent
id outside the registry would raise `KeyError` in the source; here it
creates no subtask (unreachable from `analyze_task`, whose selected
agents are registry ids). -/
def mk_subtasks (gen : Nat → String) :
    Nat → List String → String → List TaskDomain → List SubTask
  | _, [], _, _ => []
  | k, a :: rest, task, domains =>
    match agent_capability a with
    | none => mk_subtasks gen k rest task domains
    | some cap =>
      let adoms := cap.domains.filter (fun d => domains.contains d)
      if adoms.isEmpty then mk_subtasks gen k rest task domains
      else
        { id := "subtask_" ++ gen k,
          description := subtask_description task a adoms,
          agent_id := a,
          domain := adoms.headD TaskDomain.full_stack,
          dependencies := [],
          priority := calculate_priority a,
          estimated_time := estimate_agent_time a task } ::
          mk_subtasks gen (k + 1) rest task domains

/-- The dependency-wiring loop of `_establish_dependencies`
(source lines 446-460) over the priority-sorted list: the element at
position `i > 0` whose priority strictly exceeds that of the element at
`i - 1` receives as dependencies the ids of all earlier elements sharing
that previous priority; every other element keeps its dependencies.
`pre` is the already-processed prefix `sorted_tasks[:i]`. -/
def assign_deps : List SubTask → List SubTask → List SubTask
  | _, [] => []
  | pre, t :: rest =>
    (match pre.getLast? with
      | none => t
      | some p =>
        if p.priority < t.priority then
          { t with dependencies :=
              (pre.filter (fun s => s.priority == p.priority)).map SubTask.id }
        else t) :: assign_deps (pre ++ [t]) rest

/-- Insert `t` after every already-placed subtask of priority at most
`t.priority` (so equal-priority subtasks keep their arrival order). -/
def insert_by_priority : SubTask → List SubTask → List SubTask
  | t, [] => [t]
  | t, s :: rest =>
    if s.priority ≤ t.priority then s :: insert_by_priority t rest
    else t :: s :: rest

/-- Embeds `sorted(subtasks, key=lambda x: x.priority)` from the source: the Python sort is stable, and a stable sort by a key is unique, realized here as
insertion sort processing the list left to right. -/
def sort_by_priority (subtasks : List SubTask) : List SubTask :=
  subtasks.foldl (fun acc t => insert_by_priority t acc) []

/-- Embeds `_establish_dependencies` (source lines 446-460).  The source mutates
the subtask objects in place and returns the original list; the updated
subtasks are returned here in sorted order — the same multiset of
subtasks — and no settled claim depends on the order of this list. -/
def establish_dependencies (subtasks : List SubTask) : List SubTask :=
  assign_deps [] (sort_by_priority subtasks)

/-- Embeds `_decompose_task` (source lines 349-375). -/
def decompose_task (gen : Nat → String) (task : String) (agents : List String)
    (domains : List TaskDomain) : List SubTask :=
  establish_dependencies (mk_subtasks gen 0 agents task domains)

/-- Embeds `_analyze_dependencies` (source lines 462-467). -/
def analyze_dependencies (subtasks : List SubTask) : List (String × List String) :=
  subtasks.map (fun t => (t.id, t.dependencies))

/-! ## `_estimate_time` (source lines 469-492)

The source builds a `networkx.DiGraph` with one node per subtask id
(storing the duration as the *node* attribute `time` and auto-adding any
dangling dependency id as a node) and edge `dep → t.id` for every listed
dependency, then returns `nx.dag_longest_path_length(G, weight="time")`.
`dag_longest_path_length` reads the *edge* attribute named by `weight`;
no edge of this graph carries a `time` attribute, so every edge weighs
the `default_weight` of 1 and the call returns the maximum number of
edges on any directed path — not a duration-weighted length.  On a cyclic
graph the call raises and the bare `except` falls back to the sum of the
subtask durations.  The `dependencies` parameter is unused by the source
body (edges are read off `task.dependencies`); it is kept for the
signature. -/

/-- Successor ids of node `x` in the execution graph: the subtasks listing
`x` as a dependency. -/
def dep_succs (ts : List SubTask) (x : String) : List String :=
  (ts.filter (fun t => t.dependencies.contains x)).map SubTask.id

/-- Node set of the execution graph: all subtask ids plus every listed
dependency id (auto-added by `G.add_edge`), deduplicated. -/
def graph_nodes (ts : List SubTask) : List String :=
  (ts.map SubTask.id ++ ts.flatMap SubTask.dependencies).dedup

/-- Whether `y` is reachable from `x` along at most `fuel` edges. -/
def reach_within (ts : List SubTask) : Nat → String → String → Bool
  | 0, x, y => x == y
  | fuel + 1, x, y =>
    x == y || (dep_succs ts x).any (fun z => reach_within ts fuel z y)

/-- Whether node `x` lies on a directed cycle. -/
def on_cycle (ts : List SubTask) (x : String) : Bool :=
  (dep_succs ts x).any (fun z => reach_within ts (graph_nodes ts).length z x)

/-- Whether the execution graph has a directed cycle (`networkx` raises on
topological sort in that case). -/
def has_cycle (ts : List SubTask) : Bool :=
  (graph_nodes ts).any (fun x => on_cycle ts x)

/-- Longest edge count of a directed path starting at `x`, along at most
`fuel` edges; on an acyclic graph any fuel of at least the node count is
exact, since a path repeats no node. -/
def longest_from (ts : List SubTask) : Nat → String → Nat
  | 0, _ => 0
  | fuel + 1, x =>
    (dep_succs ts x).foldl (fun acc z => max acc (1 + longest_from ts fuel z)) 0

/-- The value `nx.dag_longest_path_length(G, weight="time")` actually
computes on this graph: the maximum number of edges on any directed path
(see the section comment). -/
def longest_hop_count (ts : List SubTask) : Nat :=
  (graph_nodes ts).foldl
    (fun acc x => max acc (longest_from ts (graph_nodes ts).length x)) 0

/-- Embeds `sum(task.estimated_time for task in subtasks)`. -/
def sum_times (ts : List SubTask) : ℚ :=
  ts.foldl (fun acc t => acc + t.estimated_time) 0

/-- Embeds `_estimate_time` (source lines 469-492).  For a nonempty subtask list
the graph has at least one node, so the final source `return sum(...)`
at line 492 is unreachable. -/
def estimate_time (subtasks : List SubTask)
    (dependencies : List (String × List String)) : ℚ :=
  if subtasks.isEmpty then 0
  else if has_cycle subtasks then sum_times subtasks
  else (longest_hop_count subtasks : ℚ)

/-! ## `_calculate_confidence` and `analyze_task` -/

/-- Embeds `_calculate_confidence` (source lines 494-518), decimal constants as
rationals. -/
def calculate_confidence (task : String) (domains : List TaskDomain)
    (agents : List String) : ℚ :=
  let c0 : ℚ := 1
  let c1 := if task.length < 20 then c0 * (8/10) else c0
  let c2 := if 3 < domains.length then c1 * (9/10) else c1
  let c3 := if 5 < agents.length then c2 * (85/100) else c2
  let t := lower task
  let c4 := if TASK_PATTERNS.any (fun p => p.2.keywords.any (fun k => keyword_in t k))
    then c3 * (11/10) else c3
  min c4 1

/-- Embeds `analyze_task` (source lines 223-256).  The `uuid4` draws are
modelled by the id supply `gen`: the task id consumes `gen 0` and the
`i`-th created subtask consumes `gen (i + 1)`. -/
def analyze_task (gen : Nat → String) (task : String) : TaskAnalysis :=
  let domains := identify_domains task
  let complexity := assess_complexity task domains
  let required_agents := select_agents task domains complexity
  let subtasks := decompose_task (fun n => gen (n + 1)) task required_agents domains
  let dependencies := analyze_dependencies subtasks
  { task_id := "task_" ++ gen 0,
    original_task := task,
    complexity := complexity,
    domains := domains,
    required_agents := required_agents,
    subtasks := subtasks,
    dependencies := dependencies,
    estimated_time := estimate_time subtasks dependencies,
    confidence := calculate_confidence task domains required_agents }

/-! ## Scheduler (`_execute_subtasks`, source lines 561-582)

`_execute_subtasks` spawns one coroutine per subtask; each coroutine
waits until every id in its `dependencies` list is in the shared
`completed` set, then runs the subtask and finally adds its id to
`completed`.  This is modelled as a labelled transition system over the
per-id execution states `waiting → running → done`: `start` fires only
under the wait-loop exit condition of the source (all dependencies in the
completed set, i.e. `done`), and `finish` marks a running subtask done.
Any interleaving of the asyncio coroutines is a trace of this system. -/

inductive ExecState
  | waiting
  | running
  | done
deriving DecidableEq

/-- Pointwise state update at one subtask id. -/
def set_state (σ : String → ExecState) (x : String) (v : ExecState) :
    String → ExecState :=
  fun y => if y = x then v else σ y

/-- One scheduler transition. -/
inductive SchedStep (ts : List SubTask) :
    (String → ExecState) → (String → ExecState) → Prop
  | start (σ : String → ExecState) (t : SubTask) (ht : t ∈ ts)
      (hw : σ t.id = ExecState.waiting)
      (hd : ∀ d ∈ t.dependencies, σ d = ExecState.done) :
      SchedStep ts σ (set_state σ t.id ExecState.running)
  | finish (σ : String → ExecState) (t : SubTask) (ht : t ∈ ts)
      (hr : σ t.id = ExecState.running) :
      SchedStep ts σ (set_state σ t.id ExecState.done)

/-- All subtasks start out waiting. -/
def init_state : String → ExecState := fun _ => ExecState.waiting

/-- The scheduler states reachable in a run over `ts`. -/
def sched_reachable (ts : List SubTask) (σ : String → ExecState) : Prop :=
  Relation.ReflTransGen (SchedStep ts) init_state σ

/-! ## Execution outcomes and the Result Aggregator

`_execute_single_task` (source lines 584-595) simulates the external
worker call and unconditionally reports status `completed`; the spec
(§4.5, §6) declares the worker-execution capability an external,
possibly-failing collaborator and prescribes fail-soft propagation.
Failure outcomes are therefore modelled from the spec below, while the
aggregator summary is modelled from the source (`_merge_results`,
lines 597-623). -/

/-- Modelled from the spec: fail-soft execution outcomes (spec §4.5, §5),
which are not in `src` — the source worker stub `_execute_single_task`
always succeeds.  `ok` is the oracle for the external worker call of a
given subtask id.  A subtask (looked up by id) ends `Completed` exactly
when its own worker call succeeds and every listed dependency ends
`Completed` — a failed prerequisite propagates a synthetic failure;
`fuel` bounds the dependency depth. -/
def completed_within (ts : List SubTask) (ok : String → Bool) :
    Nat → String → Bool
  | 0, _ => false
  | fuel + 1, x =>
    match ts.find? (fun t => t.id == x) with
    | none => false
    | some t => ok x && t.dependencies.all (fun d => completed_within ts ok fuel d)

/-- Modelled from the spec: the final outcome of the subtask with id `x`
under fail-soft policy (`true` = `Completed`, `false` = `Failed`); a
dependency chain in an acyclic run is shorter than the subtask count, so
`ts.length` fuel is exact. -/
def subtask_completed (ts : List SubTask) (ok : String → Bool) (x : String) : Bool :=
  completed_within ts ok ts.length x

/-- The `all_successful` summary flag of `_merge_results` (source lines
616-621): every execution record of the run reports status `completed`. -/
def all_successful (ts : List SubTask) (ok : String → Bool) : Bool :=
  ts.all (fun t => subtask_completed ts ok t.id)

/-! ## Metrics Recorder (`_record_execution`, source lines 625-660) -/

/-- One value of the `performance_metrics` dict. -/
structure AgentMetrics where
  total_tasks : Nat
  total_time : ℚ
  success_rate : ℚ
  avg_accuracy : ℚ

/-- The zero entry created for a newly seen agent (source lines 645-651). -/
def init_metrics : AgentMetrics :=
  { total_tasks := 0, total_time := 0, success_rate := 0, avg_accuracy := 0 }

/-- Python dict read `performance_metrics[agent]`, defaulting to the zero
entry the source inserts for an unseen agent. -/
def get_metric : List (String × AgentMetrics) → String → AgentMetrics
  | [], _ => init_metrics
  | e :: rest, a => if e.1 == a then e.2 else get_metric rest a

/-- Python dict write: replace the entry of an existing key in place,
otherwise append the new key. -/
def set_metric : List (String × AgentMetrics) → String → AgentMetrics →
    List (String × AgentMetrics)
  | [], a, m => [(a, m)]
  | e :: rest, a, m =>
    if e.1 == a then (a, m) :: rest else e :: set_metric rest a m

/-- The per-agent metrics update of `_record_execution` (source lines
653-660): the task count is incremented, the share of the elapsed time is
added, and the rolling success rate is recomputed **only on a successful
run** — on a failed run the source leaves `success_rate` untouched. -/
def update_agent_metrics (m : AgentMetrics) (share : ℚ) (success : Bool) :
    AgentMetrics :=
  let n := m.total_tasks + 1
  let m2 := { m with total_tasks := n, total_time := m.total_time + share }
  if success then
    { m2 with success_rate := (m2.success_rate * ((n : ℚ) - 1) + 1) / (n : ℚ) }
  else m2

/-- The metrics loop of `_record_execution` (source lines 644-660): every
required agent receives the update, with the elapsed time shared equally
(`execution_time / len(required_agents)`). -/
def record_execution_metrics (pm : List (String × AgentMetrics))
    (agents : List String) (execution_time : ℚ) (success : Bool) :
    List (String × AgentMetrics) :=
  agents.foldl
    (fun acc a =>
      set_metric acc a
        (update_agent_metrics (get_metric acc a)
          (execution_time / (agents.length : ℚ)) success))
    pm

/-- The execution-history record built by `_record_execution` (source
lines 628-639); the wall-clock timestamp is an input here. -/
structure ExecutionRecord where
  task_id : String
  timestamp : String
  complexity : TaskComplexity
  record_domains : List TaskDomain
  agents : List String
  execution_time : ℚ
  estimated_time : ℚ
  accuracy : ℚ
  confidence : ℚ
  success : Bool

/-- The record construction of `_record_execution` (source lines 628-639):
`accuracy` is `execution_time / estimated_time` guarded by
`estimated_time > 0`, with default `1.0` otherwise. -/
def mk_execution_record (analysis : TaskAnalysis) (timestamp : String)
    (execution_time : ℚ) (all_succ : Bool) : ExecutionRecord :=
  { task_id := analysis.task_id,
    timestamp := timestamp,
    complexity := analysis.complexity,
    record_domains := analysis.domains,
    agents := analysis.required_agents,
    execution_time := execution_time,
    estimated_time := analysis.estimated_time,
    accuracy :=
      if 0 < analysis.estimated_time then execution_time / analysis.estimated_time
      else 1,
    confidence := analysis.confidence,
    success := all_succ }

/-! ## The duration-weighted critical path of the spec

Spec-side definition for comparison with `estimate_time` (spec §4.4:
"treat the dependency map as a weighted DAG (node weight = subtask
duration); total estimated duration = the longest weighted path"). -/

/-- Node weight: the estimated duration of the subtask with id `x`
(0 for a dangling dependency id). -/
def time_of (ts : List SubTask) (x : String) : ℚ :=
  ((ts.find? (fun t => t.id == x)).map SubTask.estimated_time).getD 0

/-- Largest total node weight of a directed path starting at `x`, along at
most `fuel` edges. -/
def weight_from (ts : List SubTask) : Nat → String → ℚ
  | 0, x => time_of ts x
  | fuel + 1, x =>
    time_of ts x +
      (dep_succs ts x).foldl (fun acc z => max acc (weight_from ts fuel z)) 0

/-- The critical-path duration as specified: the longest duration-weighted
path through the dependency DAG, node-weighted by subtask duration (exact
on acyclic graphs, where no path repeats a node). -/
def spec_critical_path (ts : List SubTask) : ℚ :=
  (graph_nodes ts).foldl
    (fun acc x => max acc (weight_from ts (graph_nodes ts).length x)) 0

/-! ## Concrete inputs used by counterexamples and witnesses -/

/-- A bare subtask with the fields the scheduler and the time estimator
read. -/
def simple_sub (i : String) (deps : List String) (p : Nat) (time : ℚ) : SubTask :=
  { id := i, description := "", agent_id := "", domain := .backend,
    dependencies := deps, priority := p, estimated_time := time }

/-- A deterministic id supply standing in for the `uuid4` draws. -/
def gen_w : Nat → String := fun n => String.mk (List.replicate n 'x')

/-- The task text of spec Scenario A. -/
def scenario_a : String := "Create a REST API for user management"

/-- Two chained subtasks with durations 5 and 7: the duration-weighted
critical path is 12. -/
def c1_chain : List SubTask := [simple_sub "a" [] 1 5, simple_sub "b" ["a"] 2 7]

/-- Three chained zero-duration subtasks (the pipeline produces
zero durations for an empty task text): the duration sum is 0. -/
def c5_chain : List SubTask :=
  [simple_sub "a" [] 1 0, simple_sub "b" ["a"] 2 0, simple_sub "c" ["b"] 3 0]

/-- A run with subtask `b` solely dependent on subtask `a`. -/
def c3_run : List SubTask := [simple_sub "a" [] 1 0, simple_sub "b" ["a"] 2 0]

/-- A worker-outcome oracle under which every worker call fails. -/
def c3_ok : String → Bool := fun _ => false

/-- Two independent subtasks in the same priority tier. -/
def c6_pair : List SubTask := [simple_sub "s1" [] 5 0, simple_sub "s2" [] 5 0]

/-- A two-subtask run with `y` depending on `x`. -/
def c6_chain : List SubTask := [simple_sub "x" [] 1 0, simple_sub "y" ["x"] 2 0]

/-- The scheduler state after `x` ran to completion and `y` started. -/
def c6_sigma : String → ExecState :=
  set_state (set_state (set_state init_state "x" ExecState.running)
    "x" ExecState.done) "y" ExecState.running

/-- The dependency-edge relation of a subtask list: `s` is a prerequisite
of `t`. -/
def dep_edge (ts : List SubTask) (s t : SubTask) : Prop :=
  s ∈ ts ∧ t ∈ ts ∧ s.id ∈ t.dependencies

/-- A metrics entry after one successful task (success rate 1). -/
def c8_entry : AgentMetrics :=
  { total_tasks := 1, total_time := 0, success_rate := 1, avg_accuracy := 0 }

/-! # Theorems -/

/-! ### Helper lemmas -/

theorem weight_from_zero (ts : List SubTask) (x : String) :
    weight_from ts 0 x = time_of ts x := rfl

theorem weight_from_succ (ts : List SubTask) (fuel : Nat) (x : String) :
    weight_from ts (fuel + 1) x =
      time_of ts x +
        (dep_succs ts x).foldl (fun acc z => max acc (weight_from ts fuel z)) 0 := rfl

/-! ### Claim C9 — determinism of classification and role selection -/

/-- Claim C9: two calls of `analyze_task` on the same task text, with any
two id supplies (the only nondeterministic input), return the same domain
list, the same complexity tier and the same required-role list; the
subtask ids may differ with the supply. -/
theorem analyze_task_deterministic (g1 g2 : Nat → String) (task : String) :
    (analyze_task g1 task).domains = (analyze_task g2 task).domains ∧
    (analyze_task g1 task).complexity = (analyze_task g2 task).complexity ∧
    (analyze_task g1 task).required_agents = (analyze_task g2 task).required_agents :=
  ⟨rfl, rfl, rfl⟩

/-! ### Claim C4 — spec Scenario A versus the code -/

/-- Claim C4 (counterexample): on `"Create a REST API for user management"`
the identified domain set also contains `full_stack` (the pattern agent
`backend-expert` contributes both of its capability domains) and the
selected role set also contains `frontend-expert` (domain-based selection
over `full_stack`), so the claimed sets `\x7bBackend\x7d` and
`\x7bbackend-expert\x7d` are wrong. -/
theorem scenario_a_claimed_sets_false :
    TaskDomain.full_stack ∈ identify_domains scenario_a ∧
    TaskDomain.full_stack ≠ TaskDomain.backend ∧
    "frontend-expert" ∈ (analyze_task gen_w scenario_a).required_agents ∧
    "frontend-expert" ≠ "backend-expert" := by
  refine ⟨?_, ?_, ?_, ?_⟩ <;> decide

/-- Claim C4 (amended): on `"Create a REST API for user management"`,
`analyze_task` returns the domain set containing exactly `backend` and
`full_stack`, complexity `moderate`, and the role set containing exactly
`backend-expert` and `frontend-expert`, for every id supply. -/
theorem scenario_a_analysis (gen : Nat → String) :
    (analyze_task gen scenario_a).domains = [.backend, .full_stack] ∧
    (analyze_task gen scenario_a).complexity = .moderate ∧
    (analyze_task gen scenario_a).required_agents
      = ["backend-expert", "frontend-expert"] := by
  refine ⟨?_, ?_, ?_⟩
  · show identify_domains scenario_a = [.backend, .full_stack]
    decide
  · show assess_complexity scenario_a (identify_domains scenario_a) = .moderate
    decide
  · show select_agents scenario_a (identify_domains scenario_a)
        (assess_complexity scenario_a (identify_domains scenario_a))
      = ["backend-expert", "frontend-expert"]
    decide

/-! ### Claims C1 and C5 — `_estimate_time` ignores the durations -/

/-- Claim C1 (the code diverges from it): on two chained subtasks of
durations 5 and 7, `_estimate_time` returns 1 — the edge count of the
longest path, because `nx.dag_longest_path_length(G, weight="time")`
reads an edge attribute while the durations were stored on the nodes —
whereas the duration-weighted critical path of the spec is 12. -/
theorem estimate_time_ignores_durations :
    estimate_time c1_chain (analyze_dependencies c1_chain) = 1 ∧
    spec_critical_path c1_chain = 12 ∧
    (1 : ℚ) ≠ 12 := by
  have hempty : c1_chain.isEmpty = false := by decide
  have hcyc : has_cycle c1_chain = false := by decide
  have hhop : longest_hop_count c1_chain = 1 := by decide
  have hnodes : graph_nodes c1_chain = ["b", "a"] := by decide
  have hsa : dep_succs c1_chain "a" = ["b"] := by decide
  have hsb : dep_succs c1_chain "b" = [] := by decide
  have hta : time_of c1_chain "a" = 5 := rfl
  have htb : time_of c1_chain "b" = 7 := rfl
  refine ⟨?_, ?_, by norm_num⟩
  · simp [estimate_time, hempty, hcyc, hhop]
  · have hwb : weight_from c1_chain 1 "b" = 7 := by
      rw [show (1 : Nat) = 0 + 1 from rfl, weight_from_succ, hsb, htb]
      norm_num
    have hwb2 : weight_from c1_chain 2 "b" = 7 := by
      rw [show (2 : Nat) = 1 + 1 from rfl, weight_from_succ, hsb, htb]
      norm_num
    have hwa2 : weight_from c1_chain 2 "a" = 12 := by
      rw [show (2 : Nat) = 1 + 1 from rfl, weight_from_succ, hsa, hta]
      simp [hwb]
      norm_num
    rw [spec_critical_path, hnodes]
    simp [List.foldl, hwb2, hwa2]
    norm_num

/-- Claim C5 (the code diverges from it): on three chained subtasks of
duration 0 each — durations the decomposer really produces for an empty
task text — `_estimate_time` returns 2 (the hop count, see C1), which
exceeds the duration sum 0, so the claimed bound
`estimate ≤ sum of durations` fails on the code. -/
theorem estimate_time_exceeds_sum :
    estimate_time c5_chain (analyze_dependencies c5_chain) = 2 ∧
    sum_times c5_chain = 0 ∧
    ¬ (estimate_time c5_chain (analyze_dependencies c5_chain) ≤ sum_times c5_chain) := by
  have hempty : c5_chain.isEmpty = false := by decide
  have hcyc : has_cycle c5_chain = false := by decide
  have hhop : longest_hop_count c5_chain = 2 := by decide
  have h1 : estimate_time c5_chain (analyze_dependencies c5_chain) = 2 := by
    simp [estimate_time, hempty, hcyc, hhop]
  have h2 : sum_times c5_chain = 0 := by
    simp [sum_times, c5_chain, simple_sub, List.foldl]
  refine ⟨h1, h2, ?_⟩
  rw [h1, h2]
  norm_num

/-! ### Claim C10 — no division by zero in the accuracy figure -/

/-- Claim C10: the execution record guards the accuracy quotient: when the
estimated total duration of the analysis is 0, the recorded accuracy is
the default 1, not `execution_time / estimated_time`. -/
theorem record_accuracy_default (analysis : TaskAnalysis) (timestamp : String)
    (execution_time : ℚ) (succ : Bool)
    (h : analysis.estimated_time = 0) :
    (mk_execution_record analysis timestamp execution_time succ).accuracy = 1 := by
  simp [mk_execution_record, h]

/-- Claim C10 (witness): the pipeline reaches the guard — the task text
`"penetration"` yields a single-subtask analysis whose estimated total
duration is 0, and its execution record has accuracy 1. -/
theorem record_accuracy_default_witness :
    (analyze_task gen_w "penetration").estimated_time = 0 ∧
    (mk_execution_record (analyze_task gen_w "penetration") "t0" 5 true).accuracy = 1 := by
  have h : (analyze_task gen_w "penetration").estimated_time = 0 := by
    show estimate_time (analyze_task gen_w "penetration").subtasks
      (analyze_task gen_w "penetration").dependencies = 0
    have hempty : (analyze_task gen_w "penetration").subtasks.isEmpty = false := by decide
    have hcyc : has_cycle (analyze_task gen_w "penetration").subtasks = false := by decide
    have hhop : longest_hop_count (analyze_task gen_w "penetration").subtasks = 0 := by decide
    simp [estimate_time, hempty, hcyc, hhop]
  exact ⟨h, record_accuracy_default _ "t0" 5 true h⟩

/-! ### Claim C3 — fail-soft propagation and the summary flag -/

theorem completed_within_succ (ts : List SubTask) (ok : String → Bool)
    (fuel : Nat) (x : String) :
    completed_within ts ok (fuel + 1) x =
      match ts.find? (fun t => t.id == x) with
      | none => false
      | some t => ok x && t.dependencies.all (fun d => completed_within ts ok fuel d) :=
  rfl

theorem completed_within_mono (ts : List SubTask) (ok : String → Bool) :
    ∀ {g f : Nat}, f ≤ g → ∀ {x : String},
      completed_within ts ok f x = true → completed_within ts ok g x = true := by
  intro g
  induction g with
  | zero =>
    intro f hf x hx
    rw [Nat.le_zero.mp hf] at hx
    exact hx
  | succ g ih =>
    intro f hf x hx
    cases f with
    | zero => exact absurd hx (by simp [completed_within])
    | succ f =>
      rw [completed_within_succ] at hx ⊢
      cases hfind : ts.find? (fun t => t.id == x) with
      | none => rw [hfind] at hx; exact absurd hx (by simp)
      | some t =>
        rw [hfind] at hx
        simp only [Bool.and_eq_true, List.all_eq_true] at hx ⊢
        exact ⟨hx.1, fun d hd => ih (Nat.le_of_succ_le_succ hf) (hx.2 d hd)⟩

theorem find_by_id_of_nodup (ts : List SubTask)
    (hids : (ts.map SubTask.id).Nodup) (t : SubTask) (ht : t ∈ ts) :
    ts.find? (fun s => s.id == t.id) = some t := by
  induction ts with
  | nil => cases ht
  | cons h rest ih =>
    rw [List.map_cons, List.nodup_cons] at hids
    rcases List.mem_cons.mp ht with rfl | hmem
    · simp [List.find?]
    · have hne : ¬ (h.id == t.id) = true := by
        simp only [beq_iff_eq]
        intro he
        exact hids.1 (he ▸ List.mem_map_of_mem SubTask.id hmem)
      rw [List.find?]
      simp only [Bool.not_eq_true] at hne
      rw [hne]
      exact ih hids.2 hmem

/-- Claim C3: under the fail-soft policy (modelled from the spec, since
the source worker stub cannot fail), in any run whose subtask `t` has the
sole dependency `d`, if `d` ends `Failed` then `t` ends `Failed`, and the
`all_successful` summary flag of `_merge_results` is `false`. -/
theorem failed_dependency_propagates (ts : List SubTask) (ok : String → Bool)
    (t : SubTask) (d : String) (hids : (ts.map SubTask.id).Nodup)
    (ht : t ∈ ts) (hdep : t.dependencies = [d])
    (hfail : subtask_completed ts ok d = false) :
    subtask_completed ts ok t.id = false ∧ all_successful ts ok = false := by
  have hpos : 0 < ts.length := List.length_pos.mpr (List.ne_nil_of_mem ht)
  have hlen : ts.length.pred + 1 = ts.length := Nat.succ_pred_eq_of_pos hpos
  have hmain : subtask_completed ts ok t.id = false := by
    rw [subtask_completed, ← hlen, completed_within_succ,
      find_by_id_of_nodup ts hids t ht]
    show (ok t.id &&
      t.dependencies.all fun d => completed_within ts ok ts.length.pred d) = false
    rw [hdep]
    cases hb : completed_within ts ok ts.length.pred d with
    | false =>
      have hb2 : completed_within ts ok (ts.length - 1) d = false := hb
      simp [hb2]
    | true =>
      exfalso
      have hup := completed_within_mono ts ok (Nat.pred_le ts.length) hb
      rw [subtask_completed] at hfail
      rw [hfail] at hup
      cases hup
  refine ⟨hmain, ?_⟩
  exact List.all_eq_false.mpr ⟨t, ht, by simp [hmain]⟩

/-- Claim C3 (witness): in the two-subtask run where `b` solely depends on
`a` and the worker oracle fails every call, `b` ends `Failed` and the
summary flag is `false`. -/
theorem failed_dependency_propagates_witness :
    subtask_completed c3_run c3_ok "b" = false ∧
    all_successful c3_run c3_ok = false :=
  failed_dependency_propagates c3_run c3_ok (simple_sub "b" ["a"] 2 0) "a"
    (by decide)
    (List.mem_cons.mpr (Or.inr (List.mem_cons_self _ _)))
    rfl
    (by decide)

/-! ### Claim C6 — dependency gating of the scheduler -/

/-- Claim C6: (a) in every state reachable by the scheduler of
`_execute_subtasks` over a run with distinct subtask ids, a subtask in
state `running` has all of its listed dependencies in state `done` — a
subtask never starts executing before its dependencies complete; (b) two
subtasks of the same priority tier with no edge between them can overlap:
a state with both of them `running` is reachable. -/
theorem running_implies_deps_done :
    (∀ (ts : List SubTask) (σ : String → ExecState),
      (ts.map SubTask.id).Nodup → sched_reachable ts σ →
      ∀ t ∈ ts, σ t.id = ExecState.running →
        ∀ d ∈ t.dependencies, σ d = ExecState.done) ∧
    (∃ σ, sched_reachable c6_pair σ ∧
      σ "s1" = ExecState.running ∧ σ "s2" = ExecState.running) := by
  constructor
  · intro ts σ hids hreach
    induction hreach with
    | refl =>
      intro t _ hrun
      exact absurd hrun (by simp [init_state])
    | @tail σ1 σ2 _ hstep ih =>
      intro t ht hrun d hd
      cases hstep with
      | start t2 ht2 hw hdeps =>
        by_cases hid : t.id = t2.id
        · have heq : t = t2 := List.inj_on_of_nodup_map hids ht ht2 hid
          subst heq
          have hddone : σ1 d = ExecState.done := hdeps d hd
          have hdne : d ≠ t.id := fun he => by
            rw [he, hw] at hddone
            cases hddone
          rw [set_state, if_neg hdne]
          exact hddone
        · have hrun1 : σ1 t.id = ExecState.running := by
            rwa [set_state, if_neg hid] at hrun
          have hddone : σ1 d = ExecState.done := ih t ht hrun1 d hd
          have hdne : d ≠ t2.id := fun he => by
            rw [he, hw] at hddone
            cases hddone
          rw [set_state, if_neg hdne]
          exact hddone
      | finish t2 ht2 hr =>
        by_cases hid : t.id = t2.id
        · rw [set_state, if_pos hid] at hrun
          cases hrun
        · have hrun1 : σ1 t.id = ExecState.running := by
            rwa [set_state, if_neg hid] at hrun
          have hddone : σ1 d = ExecState.done := ih t ht hrun1 d hd
          rw [set_state]
          by_cases hde : d = t2.id
          · rw [if_pos hde]
          · rw [if_neg hde]
            exact hddone
  · refine ⟨set_state (set_state init_state "s1" ExecState.running)
      "s2" ExecState.running, ?_, rfl, rfl⟩
    have h1 : SchedStep c6_pair init_state
        (set_state init_state "s1" ExecState.running) :=
      SchedStep.start init_state (simple_sub "s1" [] 5 0)
        (List.mem_cons_self _ _) rfl (fun d hd => nomatch hd)
    have h2 : SchedStep c6_pair (set_state init_state "s1" ExecState.running)
        (set_state (set_state init_state "s1" ExecState.running)
          "s2" ExecState.running) :=
      SchedStep.start _ (simple_sub "s2" [] 5 0)
        (List.mem_cons.mpr (Or.inr (List.mem_cons_self _ _))) rfl
        (fun d hd => nomatch hd)
    exact Relation.ReflTransGen.tail (Relation.ReflTransGen.tail
      Relation.ReflTransGen.refl h1) h2

/-- Claim C6 (witness): in the run where `y` depends on `x`, the state
reached by starting `x`, finishing it and starting `y` satisfies the
invariant instance: since `y` is running, its dependency `x` is done. -/
theorem running_implies_deps_done_witness : c6_sigma "x" = ExecState.done := by
  have h1 : SchedStep c6_chain init_state
      (set_state init_state "x" ExecState.running) :=
    SchedStep.start init_state (simple_sub "x" [] 1 0)
      (List.mem_cons_self _ _) rfl (fun d hd => nomatch hd)
  have h2 : SchedStep c6_chain (set_state init_state "x" ExecState.running)
      (set_state (set_state init_state "x" ExecState.running)
        "x" ExecState.done) :=
    SchedStep.finish _ (simple_sub "x" [] 1 0)
      (List.mem_cons_self _ _) rfl
  have h3 : SchedStep c6_chain
      (set_state (set_state init_state "x" ExecState.running)
        "x" ExecState.done) c6_sigma :=
    SchedStep.start _ (simple_sub "y" ["x"] 2 0)
      (List.mem_cons.mpr (Or.inr (List.mem_cons_self _ _))) rfl
      (fun d hd => by
        rcases List.mem_singleton.mp hd with rfl
        rfl)
  have hreach : sched_reachable c6_chain c6_sigma :=
    Relation.ReflTransGen.tail (Relation.ReflTransGen.tail
      (Relation.ReflTransGen.tail Relation.ReflTransGen.refl h1) h2) h3
  exact running_implies_deps_done.1 c6_chain c6_sigma (by decide) hreach
    (simple_sub "y" ["x"] 2 0)
    (List.mem_cons.mpr (Or.inr (List.mem_cons_self _ _))) rfl
    "x" (List.mem_cons_self _ _)

/-! ### Claim C8 — the metrics recorder -/

theorem get_set_metric_self (pm : List (String × AgentMetrics)) (a : String)
    (m : AgentMetrics) : get_metric (set_metric pm a m) a = m := by
  induction pm with
  | nil => simp [set_metric, get_metric]
  | cons e rest ih =>
    by_cases he : e.1 = a
    · simp [set_metric, get_metric, he]
    · simp [set_metric, get_metric, he, ih]

theorem get_set_metric_other (pm : List (String × AgentMetrics)) (b : String)
    (m : AgentMetrics) (a : String) (hab : a ≠ b) :
    get_metric (set_metric pm b m) a = get_metric pm a := by
  have hba : b ≠ a := Ne.symm hab
  induction pm with
  | nil => simp [set_metric, get_metric, hba]
  | cons e rest ih =>
    by_cases he : e.1 = b
    · simp [set_metric, get_metric, he, hba]
    · by_cases hea : e.1 = a
      · simp [set_metric, get_metric, he, hea, hab]
      · simp [set_metric, get_metric, he, hea, ih]

theorem fold_metrics_preserves (sh : ℚ) (success : Bool) :
    ∀ (xs : List String) (pm : List (String × AgentMetrics)) (a : String),
      a ∉ xs →
      get_metric (xs.foldl (fun acc x =>
        set_metric acc x (update_agent_metrics (get_metric acc x) sh success)) pm) a
        = get_metric pm a := by
  intro xs
  induction xs with
  | nil => intro pm a _; rfl
  | cons x rest ih =>
    intro pm a ha
    rw [List.foldl_cons]
    have hax : a ≠ x := fun h => ha (h ▸ List.mem_cons_self _ _)
    rw [ih _ a (fun h => ha (List.mem_cons.mpr (Or.inr h))),
      get_set_metric_other _ _ _ _ hax]

theorem fold_metrics_get (sh : ℚ) (success : Bool) :
    ∀ (xs : List String) (pm : List (String × AgentMetrics)) (a : String),
      xs.Nodup → a ∈ xs →
      get_metric (xs.foldl (fun acc x =>
        set_metric acc x (update_agent_metrics (get_metric acc x) sh success)) pm) a
        = update_agent_metrics (get_metric pm a) sh success := by
  intro xs
  induction xs with
  | nil => intro pm a _ ha; cases ha
  | cons x rest ih =>
    intro pm a hnd ha
    rw [List.foldl_cons]
    rcases List.mem_cons.mp ha with rfl | hmem
    · rw [fold_metrics_preserves sh success rest _ a (List.nodup_cons.mp hnd).1,
        get_set_metric_self]
    · have hax : a ≠ x := fun h => (List.nodup_cons.mp hnd).1 (h ▸ hmem)
      rw [ih _ a (List.nodup_cons.mp hnd).2 hmem,
        get_set_metric_other _ _ _ _ hax]

/-- Claim C8 (counterexample): after an agent with one recorded success
(rate 1) is involved in a **failed** run, the source leaves its success
rate at 1, while the claimed incremental-mean formula with outcome 0
yields `(1 * (2 - 1) + 0) / 2 = 1/2`. -/
theorem metrics_failed_run_rate_unchanged :
    (get_metric (record_execution_metrics [("a", c8_entry)] ["a"] 0 false) "a").success_rate
      = 1 ∧
    ((1 : ℚ) * ((2 : ℚ) - 1) + 0) / 2 = 1 / 2 ∧
    (1 : ℚ) ≠ 1 / 2 := by
  refine ⟨?_, by norm_num, by norm_num⟩
  rw [record_execution_metrics, List.foldl_cons, List.foldl_nil,
    get_set_metric_self]
  rfl

/-- Claim C8 (amended): after every recorded run, for every role `a`
involved (the roles of a run are distinct), the recorder increments that
task count of that role by one and adds the share
`execution_time / (number of roles)` to its cumulative time; the rolling
success rate becomes `(old_rate * (n-1) + 1) / n` (with `n` the new task
count) on a successful run and is left unchanged on a failed run. -/
theorem metrics_update_per_agent (pm : List (String × AgentMetrics))
    (agents : List String) (execution_time : ℚ) (success : Bool) (a : String)
    (hnd : agents.Nodup) (ha : a ∈ agents) :
    (get_metric (record_execution_metrics pm agents execution_time success) a).total_tasks
        = (get_metric pm a).total_tasks + 1 ∧
    (get_metric (record_execution_metrics pm agents execution_time success) a).total_time
        = (get_metric pm a).total_time + execution_time / (agents.length : ℚ) ∧
    (get_metric (record_execution_metrics pm agents execution_time success) a).success_rate
        = if success then
            ((get_metric pm a).success_rate * ((get_metric pm a).total_tasks : ℚ) + 1)
              / (((get_metric pm a).total_tasks : ℚ) + 1)
          else (get_metric pm a).success_rate := by
  rw [record_execution_metrics,
    fold_metrics_get (execution_time / (agents.length : ℚ)) success agents pm a hnd ha]
  cases success with
  | false => exact ⟨rfl, rfl, rfl⟩
  | true =>
    refine ⟨rfl, rfl, ?_⟩
    simp only [update_agent_metrics, if_pos]
    push_cast
    ring_nf

/-- Claim C8 (witness): the amended update law at a concrete state — an
empty metrics table, the two-role run `["a", "b"]` of elapsed time 4,
successful, observed at role `"a"`. -/
theorem metrics_update_per_agent_witness :
    (get_metric (record_execution_metrics [] ["a", "b"] 4 true) "a").total_tasks
        = (get_metric [] "a").total_tasks + 1 ∧
    (get_metric (record_execution_metrics [] ["a", "b"] 4 true) "a").total_time
        = (get_metric [] "a").total_time + 4 / ((["a", "b"].length : Nat) : ℚ) ∧
    (get_metric (record_execution_metrics [] ["a", "b"] 4 true) "a").success_rate
        = if true then
            ((get_metric [] "a").success_rate * ((get_metric [] "a").total_tasks : ℚ) + 1)
              / (((get_metric [] "a").total_tasks : ℚ) + 1)
          else (get_metric [] "a").success_rate :=
  metrics_update_per_agent [] ["a", "b"] 4 true "a" (by decide) (by decide)

/-! ### Claim C2 — the decomposer dependency graph is acyclic -/

theorem mem_insert_by_priority {s t : SubTask} :
    ∀ {l : List SubTask}, s ∈ insert_by_priority t l ↔ s = t ∨ s ∈ l := by
  intro l
  induction l with
  | nil => simp [insert_by_priority]
  | cons h rest ih =>
    by_cases hc : h.priority ≤ t.priority
    · simp only [insert_by_priority, if_pos hc, List.mem_cons, ih]
      tauto
    · simp only [insert_by_priority, if_neg hc, List.mem_cons]

theorem mem_sort_fold :
    ∀ (l acc : List SubTask) (s : SubTask),
      s ∈ l.foldl (fun acc t => insert_by_priority t acc) acc ↔ s ∈ acc ∨ s ∈ l := by
  intro l
  induction l with
  | nil => simp
  | cons t rest ih =>
    intro acc s
    rw [List.foldl_cons, ih, mem_insert_by_priority, List.mem_cons]
    tauto

theorem mem_sort_by_priority (l : List SubTask) (s : SubTask) :
    s ∈ sort_by_priority l ↔ s ∈ l := by
  rw [sort_by_priority, mem_sort_fold]
  simp

theorem assign_deps_pairs :
    ∀ (l pre : List SubTask),
      (assign_deps pre l).map (fun t => (t.id, t.priority))
        = l.map (fun t => (t.id, t.priority)) := by
  intro l
  induction l with
  | nil => intro pre; rfl
  | cons t rest ih =>
    intro pre
    simp only [assign_deps, List.map_cons, ih]
    congr 1
    cases pre.getLast? with
    | none => rfl
    | some p =>
      dsimp only
      by_cases hp : p.priority < t.priority
      · rw [if_pos hp]
      · rw [if_neg hp]

theorem mk_subtasks_deps_nil (gen : Nat → String) :
    ∀ (agents : List String) (k : Nat) (task : String) (domains : List TaskDomain)
      (t : SubTask), t ∈ mk_subtasks gen k agents task domains →
      t.dependencies = [] := by
  intro agents
  induction agents with
  | nil => intro k task domains t ht; cases ht
  | cons a rest ih =>
    intro k task domains t ht
    simp only [mk_subtasks] at ht
    split at ht
    · exact ih _ _ _ t ht
    · split at ht
      · exact ih _ _ _ t ht
      · rcases List.mem_cons.mp ht with rfl | hmem
        · rfl
        · exact ih _ _ _ t hmem

theorem assign_deps_dep_bound :
    ∀ (l pre : List SubTask), (∀ t ∈ l, t.dependencies = []) →
      ∀ t2 ∈ assign_deps pre l, ∀ d ∈ t2.dependencies,
        ∃ s, s ∈ pre ++ l ∧ s.id = d ∧ s.priority < t2.priority := by
  intro l
  induction l with
  | nil => intro pre _ t2 ht2; cases ht2
  | cons t rest ih =>
    intro pre hnil t2 ht2 d hd
    rcases List.mem_cons.mp ht2 with heq | hmem
    · cases hlast : pre.getLast? with
      | none =>
        simp only [hlast] at heq
        rw [heq, hnil t (List.mem_cons_self _ _)] at hd
        cases hd
      | some p =>
        simp only [hlast] at heq
        by_cases hp : p.priority < t.priority
        · rw [if_pos hp] at heq
          rw [heq] at hd
          simp only [SubTask.mk.injEq] at hd
          obtain ⟨s, hs, hsid⟩ := List.mem_map.mp hd
          have hsf := List.mem_filter.mp hs
          have hspr : s.priority = p.priority := by simpa using hsf.2
          refine ⟨s, List.mem_append.mpr (Or.inl hsf.1), hsid, ?_⟩
          rw [heq]
          show s.priority < t.priority
          rw [hspr]
          exact hp
        · rw [if_neg hp] at heq
          rw [heq, hnil t (List.mem_cons_self _ _)] at hd
          cases hd
    · obtain ⟨s, hs, hsid, hsp⟩ :=
        ih (pre ++ [t]) (fun u hu => hnil u (List.mem_cons.mpr (Or.inr hu)))
          t2 hmem d hd
      refine ⟨s, ?_, hsid, hsp⟩
      rw [List.append_assoc, List.singleton_append] at hs
      exact hs

/-- Claim C2: for every task text and id supply with distinct generated
subtask ids, every dependency edge produced by the decomposer points from
a subtask of strictly lower priority tier to one of strictly higher
priority tier, and consequently the dependency relation has no cycle
(a topological sort always succeeds). -/
theorem decomposer_graph_acyclic (gen : Nat → String) (task : String)
    (hids : ((analyze_task gen task).subtasks.map SubTask.id).Nodup) :
    (∀ t ∈ (analyze_task gen task).subtasks, ∀ d ∈ t.dependencies,
      ∃ s ∈ (analyze_task gen task).subtasks, s.id = d ∧ s.priority < t.priority) ∧
    (∀ t, ¬ Relation.TransGen (dep_edge (analyze_task gen task).subtasks) t t) := by
  have hform : (analyze_task gen task).subtasks
      = assign_deps [] (sort_by_priority (mk_subtasks (fun n => gen (n + 1)) 0
          (select_agents task (identify_domains task)
            (assess_complexity task (identify_domains task)))
          task (identify_domains task))) := rfl
  have hnil : ∀ t ∈ sort_by_priority (mk_subtasks (fun n => gen (n + 1)) 0
      (select_agents task (identify_domains task)
        (assess_complexity task (identify_domains task)))
      task (identify_domains task)), t.dependencies = [] :=
    fun t ht => mk_subtasks_deps_nil _ _ _ _ _ t ((mem_sort_by_priority _ t).mp ht)
  have part1 : ∀ t ∈ (analyze_task gen task).subtasks, ∀ d ∈ t.dependencies,
      ∃ s ∈ (analyze_task gen task).subtasks, s.id = d ∧ s.priority < t.priority := by
    intro t ht d hd
    rw [hform] at ht
    obtain ⟨s, hs, hsid, hsp⟩ := assign_deps_dep_bound _ [] hnil t ht d hd
    rw [List.nil_append] at hs
    have hpair : (s.id, s.priority) ∈ (assign_deps [] (sort_by_priority
        (mk_subtasks (fun n => gen (n + 1)) 0
          (select_agents task (identify_domains task)
            (assess_complexity task (identify_domains task)))
          task (identify_domains task)))).map (fun u => (u.id, u.priority)) := by
      rw [assign_deps_pairs]
      exact List.mem_map_of_mem _ hs
    obtain ⟨s2, hs2mem, hs2eq⟩ := List.mem_map.mp hpair
    have hid2 : s2.id = s.id := congrArg Prod.fst hs2eq
    have hpr2 : s2.priority = s.priority := congrArg Prod.snd hs2eq
    exact ⟨s2, by rw [hform]; exact hs2mem, by rw [hid2, hsid],
      by rw [hpr2]; exact hsp⟩
  refine ⟨part1, ?_⟩
  have key : ∀ a b, dep_edge (analyze_task gen task).subtasks a b →
      a.priority < b.priority := by
    rintro a b ⟨haS, hbS, hid⟩
    obtain ⟨s, hsS, hsid, hslt⟩ := part1 b hbS a.id hid
    have heq : s = a := List.inj_on_of_nodup_map hids hsS haS hsid
    exact heq ▸ hslt
  have tg : ∀ a b, Relation.TransGen (dep_edge (analyze_task gen task).subtasks) a b →
      a.priority < b.priority := by
    intro a b h
    induction h with
    | single h => exact key _ _ h
    | tail _ h2 ih => exact lt_trans ih (key _ _ h2)
  intro t htg
  exact lt_irrefl _ (tg t t htg)

/-- Claim C2 (witness): the Scenario A analysis under the concrete id
supply has distinct subtask ids, and its dependency graph satisfies the
edge-monotonicity and acyclicity properties. -/
theorem decomposer_graph_acyclic_witness :
    (∀ t ∈ (analyze_task gen_w scenario_a).subtasks, ∀ d ∈ t.dependencies,
      ∃ s ∈ (analyze_task gen_w scenario_a).subtasks,
        s.id = d ∧ s.priority < t.priority) ∧
    (∀ t, ¬ Relation.TransGen
      (dep_edge (analyze_task gen_w scenario_a).subtasks) t t) :=
  decomposer_graph_acyclic gen_w scenario_a (by decide)

/-! ### Claim C7 — classification and role selection are total -/

theorem default_if_ne_nil (l : List TaskDomain) :
    (if l.isEmpty then [TaskDomain.full_stack] else l) ≠ [] := by
  cases l <;> simp

theorem identify_domains_ne_nil (task : String) : identify_domains task ≠ [] := by
  unfold identify_domains
  apply default_if_ne_nil

/-- Every pattern of the table implies only registry role ids. -/
theorem pattern_agents_known :
    ∀ p ∈ TASK_PATTERNS, ∀ a ∈ p.2.agents, a ∈ registry_ids := by decide

/-- Every domain is covered by some registry role whose complexity ceiling
is at least `complex`. -/
theorem domain_covered :
    ∀ d : TaskDomain, ∃ e ∈ AGENT_CAPABILITIES,
      e.2.domains.contains d = true ∧ 3 ≤ complexity_value e.2.complexity_limit := by
  decide

theorem mem_select_of_qa (task : String) (domains : List TaskDomain)
    (c : TaskComplexity) (h : c = .complex ∨ c = .expert) :
    "qa-expert" ∈ select_agents task domains c := by
  simp only [select_agents]
  rw [List.mem_dedup]
  refine List.mem_append.mpr (Or.inl (List.mem_append.mpr (Or.inr ?_)))
  rw [if_pos h]
  exact List.mem_cons_self _ _

theorem mem_select_of_domain (task : String) (domains : List TaskDomain)
    (c : TaskComplexity) (d : TaskDomain) (hd : d ∈ domains)
    (e : String × Capability) (he : e ∈ AGENT_CAPABILITIES)
    (hdom : e.2.domains.contains d = true)
    (hcv : complexity_value c ≤ complexity_value e.2.complexity_limit) :
    e.1 ∈ select_agents task domains c := by
  simp only [select_agents]
  rw [List.mem_dedup]
  refine List.mem_append.mpr (Or.inl (List.mem_append.mpr
    (Or.inl (List.mem_append.mpr (Or.inr ?_)))))
  refine List.mem_flatMap.mpr ⟨d, hd, ?_⟩
  refine List.mem_map.mpr ⟨e, List.mem_filter.mpr ⟨he, ?_⟩, rfl⟩
  have hdm : d ∈ e.2.domains := by simpa using hdom
  simp [hdm, hcv]

theorem select_agents_subset (task : String) (domains : List TaskDomain)
    (c : TaskComplexity) :
    ∀ a ∈ select_agents task domains c, a ∈ registry_ids := by
  intro a ha
  simp only [select_agents] at ha
  rw [List.mem_dedup] at ha
  rcases List.mem_append.mp ha with h | h
  · rcases List.mem_append.mp h with h | h
    · rcases List.mem_append.mp h with h | h
      · obtain ⟨p, hp, hap⟩ := List.mem_flatMap.mp h
        have hap2 : a ∈ p.2.agents := by
          by_cases hmatch : (p.2.keywords.any fun k => keyword_in (lower task) k) = true
          · rwa [if_pos hmatch] at hap
          · rw [if_neg hmatch] at hap
            cases hap
        exact pattern_agents_known p hp a hap2
      · obtain ⟨d, _, ha2⟩ := List.mem_flatMap.mp h
        obtain ⟨e, he, rfl⟩ := List.mem_map.mp ha2
        exact List.mem_map_of_mem _ (List.mem_of_mem_filter he)
    · by_cases hc : c = TaskComplexity.complex ∨ c = TaskComplexity.expert
      · rw [if_pos hc] at h
        rcases List.mem_singleton.mp h with rfl
        decide
      · rw [if_neg hc] at h
        cases h
  · by_cases hs : (sensitive_keywords.any fun k => keyword_in (lower task) k) = true
    · rw [if_pos hs] at h
      rcases List.mem_singleton.mp h with rfl
      decide
    · rw [if_neg hs] at h
      cases h

/-- Claim C7: for every task text and id supply, the analysis has a
non-empty domain list and a non-empty required-role list all of whose
members are role ids declared in the capability registry. -/
theorem analyze_task_wellformed (gen : Nat → String) (task : String) :
    (analyze_task gen task).domains ≠ [] ∧
    (analyze_task gen task).required_agents ≠ [] ∧
    ∀ a ∈ (analyze_task gen task).required_agents, a ∈ registry_ids := by
  refine ⟨identify_domains_ne_nil task, ?_, ?_⟩
  · show select_agents task (identify_domains task)
      (assess_complexity task (identify_domains task)) ≠ []
    cases hc : assess_complexity task (identify_domains task) with
    | complex => exact List.ne_nil_of_mem (mem_select_of_qa _ _ _ (Or.inl rfl))
    | expert => exact List.ne_nil_of_mem (mem_select_of_qa _ _ _ (Or.inr rfl))
    | simple =>
      obtain ⟨d0, hd0⟩ :=
        List.exists_mem_of_ne_nil _ (identify_domains_ne_nil task)
      obtain ⟨e, he, hdom, hcv3⟩ := domain_covered d0
      exact List.ne_nil_of_mem (mem_select_of_domain _ _ _ d0 hd0 e he hdom
        (le_trans (by decide) hcv3))
    | moderate =>
      obtain ⟨d0, hd0⟩ :=
        List.exists_mem_of_ne_nil _ (identify_domains_ne_nil task)
      obtain ⟨e, he, hdom, hcv3⟩ := domain_covered d0
      exact List.ne_nil_of_mem (mem_select_of_domain _ _ _ d0 hd0 e he hdom
        (le_trans (by decide) hcv3))
  · show ∀ a ∈ select_agents task (identify_domains task)
      (assess_complexity task (identify_domains task)), a ∈ registry_ids
    exact select_agents_subset _ _ _

/-- Claim C7 (witness): the guarantee at a concrete input — the empty task
text, which matches no pattern. -/
theorem analyze_task_wellformed_witness :
    (analyze_task gen_w "").domains ≠ [] ∧
    (analyze_task gen_w "").required_agents ≠ [] ∧
    ∀ a ∈ (analyze_task gen_w "").required_agents, a ∈ registry_ids :=
  analyze_task_wellformed gen_w ""

end Orchestrator
